import Mathlib

/-!
# The portable executor (`client/executor/exec_universal.go`)

A shallow embedding of `UniversalExecutor`, the executor used on every
platform but Linux, and of the parts of Go's standard library it calls
(`strconv.Atoi`, `strconv.Itoa`, `os.FindProcess`, `exec.Cmd.Start`,
`exec.Cmd.Wait`, `os.Process.Kill`).

* The executor is a value of `UniversalExecutor`; a method with a pointer
  receiver takes the value and returns the updated one.
* The operating system is a record `OS σ` of operations over an abstract
  kernel state `σ`, threaded explicitly through every call that reaches it.
* The interpolation packages of the repository (`args`, `environment`) and the
  constant `allocdir.TaskLocal` are not defined in this file of the source;
  they are the fields of `Collaborators`.
-/

namespace Executor

/-! ## Errors -/

/-- Go `error` values that the executor returns.  Each constructor stands for
one expression of the source. -/
inductive Error where
  /-- The package-level value `errNoResources`. -/
  | errNoResources : Error
  /-- Built by `fmt.Errorf("Error finding task dir for (%s)", taskName)`. -/
  | taskDirNotFound (taskName : String) : Error
  /-- Built by `fmt.Errorf("error parsing command args")`. -/
  | parsingCommandArgs : Error
  /-- Built by `fmt.Errorf("Failed to parse pid %v: %v", pid, err)`. -/
  | parsePid (pid : String) (cause : Error) : Error
  /-- Built by `fmt.Errorf("Failed to reopen pid %d: %v", pidNum, err)`. -/
  | reopenPid (pidNum : Int) (cause : Error) : Error
  /-- Built by `fmt.Errorf("Process has finished or was never started")`. -/
  | noProcess : Error
  /-- The `*strconv.NumError` with `Err = strconv.ErrSyntax`. -/
  | numSyntax (fn : String) (num : String) : Error
  /-- The `*strconv.NumError` with `Err = strconv.ErrRange`. -/
  | numRange (fn : String) (num : String) : Error
  /-- An error made by the standard library, the kernel or a collaborator,
  identified by its message. -/
  | external (msg : String) : Error
  deriving DecidableEq, Repr

deriving instance DecidableEq for Except

/-! ## `strconv` -/

/-- The test `'0' <= c && c <= '9'` of `strconv.ParseUint`. -/
def isDigit (c : Char) : Bool :=
  decide ('0'.toNat ≤ c.toNat) && decide (c.toNat ≤ '9'.toNat)

/-- The value `c - '0'` of a digit. -/
def digitVal (c : Char) : Nat :=
  c.toNat - '0'.toNat

/-- The largest `uint64`. -/
def maxUint64 : Nat := 18446744073709551615

/-- The causes of a `strconv.NumError`. -/
inductive NumErr where
  | ErrSyntax
  | ErrRange
  deriving DecidableEq, Repr

/-- The digit loop of `strconv.ParseUint(s, 10, bitSize)`: `n` is the value
read so far, `maxVal = 1<<bitSize - 1`.  A character that is no digit is a
syntax error; `n >= cutoff` (the next `n * 10` would leave `uint64`) and
`n1 > maxVal` are range errors. -/
def parseUintLoop (maxVal : Nat) : List Char → Nat → Except NumErr Nat
  | [], n => .ok n
  | c :: cs, n =>
    if isDigit c = false then .error .ErrSyntax
    else if n ≥ maxUint64 / 10 + 1 then .error .ErrRange
    else
      let n1 := n * 10 + digitVal c
      if n1 > maxUint64 ∨ n1 > maxVal then .error .ErrRange
      else parseUintLoop maxVal cs n1

/-- Go `strconv.ParseUint(s, 10, bitSize)` on the characters of `s`. -/
def ParseUint (bitSize : Nat) (s : List Char) : Except NumErr Nat :=
  if s = [] then .error .ErrSyntax
  else parseUintLoop (2 ^ bitSize - 1) s 0

/-- Go `strconv.Atoi(s)` for an `int` of `intSize` bits, which is
`ParseInt(s, 10, 0)`: an optional sign, `ParseUint` on the rest, then the
range check against `cutoff = 1 << (intSize - 1)`. -/
def Atoi (intSize : Nat) (s : String) : Except Error Int :=
  match s.data with
  | [] => .error (.numSyntax "Atoi" s)
  | c :: cs =>
    let neg : Bool := decide (c = '-')
    let rest : List Char := if c = '+' ∨ c = '-' then cs else c :: cs
    let cutoff : Nat := 2 ^ (intSize - 1)
    match ParseUint intSize rest with
    | .error .ErrSyntax => .error (.numSyntax "Atoi" s)
    | .error .ErrRange => .error (.numRange "Atoi" s)
    | .ok un =>
      if neg = false ∧ un ≥ cutoff then .error (.numRange "Atoi" s)
      else if neg = true ∧ un > cutoff then .error (.numRange "Atoi" s)
      else .ok (if neg then -(un : Int) else (un : Int))

/-- The character `'0' + d`. -/
def digitChar (d : Nat) : Char :=
  Char.ofNat ('0'.toNat + d)

/-- The decimal digits of `n`, most significant first (the digits that
`strconv.FormatUint(n, 10)` writes).  `fuel` bounds the number of digits; any
`fuel > n` is enough. -/
def formatDecimal : Nat → Nat → List Char
  | 0, _ => []
  | fuel + 1, n =>
    if n < 10 then [digitChar n]
    else formatDecimal fuel (n / 10) ++ [digitChar (n % 10)]

/-- Go `strconv.Itoa(i)`: the decimal digits of `i`, after a `-` when `i` is
negative. -/
def Itoa (i : Int) : String :=
  if i < 0 then String.mk ('-' :: formatDecimal (i.natAbs + 1) i.natAbs)
  else String.mk (formatDecimal (i.toNat + 1) i.toNat)

/-! ## The operating system and the collaborators -/

/-- Go `os.Process`, the handle of an operating-system process.  `Pid` is a Go
`int`. -/
structure Process where
  Pid : Int
  deriving DecidableEq, Repr

/-- The kernel as `os` and `os/exec` reach it, over an abstract kernel state
`σ`.  Every operation takes the state before the call and gives the state
after it. -/
structure OS (σ : Type) where
  /-- The width of Go's `int` on the platform (`strconv.IntSize`). -/
  intSize : Nat
  /-- The call `os.StartProcess(name, argv, attr)` with `attr.Dir` and
  `attr.Env`: the new process or the launch error. -/
  StartProcess : σ → String → List String → List String → String → σ × Except Error Process
  /-- The platform lookup behind `os.FindProcess(pid)`: `none` when the
  process is found, the error otherwise. -/
  Lookup : σ → Int → σ × Option Error
  /-- The call `p.Kill()` on a handle that is not nil. -/
  Kill : σ → Process → σ × Option Error
  /-- The wait for the exit of the process behind `exec.Cmd.Wait`: `none` when
  the call blocks for ever, else the state after the exit and the error that
  `exec.Cmd.Wait` returns (`nil` for a clean exit). -/
  WaitExit : σ → Process → Option (σ × Option Error)

/-- What `Start` uses of the other packages of the repository. -/
structure Collaborators where
  /-- The constant `allocdir.TaskLocal`. -/
  TaskLocal : String
  /-- The function `args.ParseAndReplace(s, m)`: the expanded fields of `s`
  under the token map `m`, or a parse error. -/
  ParseAndReplace : String → List (String × String) → Except Error (List String)
  /-- The type `environment.TaskEnvironment`. -/
  TaskEnvironment : Type
  /-- The function `environment.ParseFromList(env)`. -/
  ParseFromList : List String → Except Error TaskEnvironment
  /-- The method `TaskEnvironment.Map()`. -/
  Map : TaskEnvironment → List (String × String)

/-- Modelled from the spec: the type `allocdir.AllocDir` is declared outside
this file; it is the Task Directory Binding, a mapping from task name to the
path of the task directory, which the source reads as the map `TaskDirs`.  A
Go map is kept as an association list read with `List.lookup`. -/
structure AllocDir where
  TaskDirs : List (String × String)
  deriving DecidableEq, Repr

/-! ## The executor -/

/-- Modelled from the spec: the type `cmd` that `UniversalExecutor` embeds is
declared outside this file; it is the Command Specification (`Path`, `Args`,
`Env`, `Dir`) together with the Process Handle (`Process`, where `nil` is
`none`).  The source uses it as an `exec.Cmd` (`e.Cmd.Args`, `e.cmd.Start()`,
`e.cmd.Wait()`), whose unexported flag `finished` is kept for `Wait`. -/
structure UniversalExecutor where
  Path : String
  Args : List String
  Env : List String
  Dir : String
  Process : Option Process
  finished : Bool
  deriving DecidableEq, Repr

/-- The function `NewExecutor`: `&UniversalExecutor{}`, every field at its zero
value. -/
def NewExecutor : UniversalExecutor :=
  { Path := "", Args := [], Env := [], Dir := "", Process := none, finished := false }

/-- How a call that may dereference a nil handle or wait for the kernel ends:
it returns with the kernel state, the executor and the error after the call,
it panics, or it never returns. -/
inductive Outcome (σ : Type) where
  | returned (s : σ) (e : UniversalExecutor) (err : Option Error) : Outcome σ
  | panicked : Outcome σ
  | blocked : Outcome σ
  deriving DecidableEq, Repr

/-- The method `Limit`: the error is `errNoResources` exactly for a nil
`resources`, and the executor is not written. -/
def Limit {R : Type} (e : UniversalExecutor) (resources : Option R) :
    UniversalExecutor × Option Error :=
  match resources with
  | none => (e, some .errNoResources)
  | some _ => (e, none)

/-- The method `ConfigureTaskDir`, for an `alloc` that is not nil. -/
def ConfigureTaskDir (e : UniversalExecutor) (taskName : String) (alloc : AllocDir) :
    UniversalExecutor × Option Error :=
  match alloc.TaskDirs.lookup taskName with
  | none => (e, some (.taskDirNotFound taskName))
  | some taskDir => ({ e with Dir := taskDir }, none)

/-- Go `strings.Join(elems, " ")`. -/
def joinSpace (elems : List String) : String :=
  " ".intercalate elems

/-- The map `ntdMap` that `Start` builds: one entry, for `NOMAD_TASK_DIR`. -/
def ntdMap (C : Collaborators) : List (String × String) :=
  [("NOMAD_TASK_DIR", C.TaskLocal)]

/-- The argument vector of `exec.Cmd`: `Args`, or the path alone when `Args`
is empty. -/
def argv (e : UniversalExecutor) : List String :=
  if e.Args = [] then [e.Path] else e.Args

/-- Go `exec.Cmd.Start` on the embedded command: a command that has a process
is refused, otherwise the process that `os.StartProcess` gives is stored, and
a launch error leaves `Process` nil. -/
def cmdStart {σ : Type} (W : OS σ) (s : σ) (e : UniversalExecutor) :
    σ × UniversalExecutor × Option Error :=
  match e.Process with
  | some _ => (s, e, some (.external "exec: already started"))
  | none =>
    match W.StartProcess s e.Path (argv e) e.Env e.Dir with
    | (s1, .error err) => (s1, e, some err)
    | (s1, .ok p) => (s1, { e with Process := some p }, none)

/-- The method `Start`. -/
def Start {σ : Type} (C : Collaborators) (W : OS σ) (s : σ) (e : UniversalExecutor) :
    σ × UniversalExecutor × Option Error :=
  match C.ParseAndReplace e.Path (ntdMap C) with
  | .error _ => (s, e, some .parsingCommandArgs)
  | .ok cmPath =>
    let e1 := { e with Path := joinSpace cmPath }
    match C.ParseFromList e1.Env with
    | .error err => (s, e1, some err)
    | .ok envVars =>
      let combined := joinSpace e1.Args
      match C.ParseAndReplace combined (C.Map envVars) with
      | .error err => (s, e1, some err)
      | .ok parsed =>
        let e2 := { e1 with Args := parsed }
        cmdStart W s e2

/-- Go `os.FindProcess(pid)`: the handle of the process with that id when the
platform lookup finds it. -/
def FindProcess {σ : Type} (W : OS σ) (s : σ) (pid : Int) : σ × Except Error Process :=
  match W.Lookup s pid with
  | (s1, some err) => (s1, .error err)
  | (s1, none) => (s1, .ok { Pid := pid })

/-- The method `Open`. -/
def Open {σ : Type} (W : OS σ) (s : σ) (e : UniversalExecutor) (pid : String) :
    σ × UniversalExecutor × Option Error :=
  match Atoi W.intSize pid with
  | .error err => (s, e, some (.parsePid pid err))
  | .ok pidNum =>
    match FindProcess W s pidNum with
    | (s1, .error err) => (s1, e, some (.reopenPid pidNum err))
    | (s1, .ok process) => (s1, { e with Process := some process }, none)

/-- Go `exec.Cmd.Wait` on the embedded command: it fails at once when there is
no process or `Wait` was called before, else it marks the command finished and
waits for the exit.  It does not write `Process`. -/
def cmdWait {σ : Type} (W : OS σ) (s : σ) (e : UniversalExecutor) : Outcome σ :=
  match e.Process with
  | none => .returned s e (some (.external "exec: not started"))
  | some p =>
    if e.finished then .returned s e (some (.external "exec: Wait was already called"))
    else
      match W.WaitExit s p with
      | none => .blocked
      | some (s1, err) => .returned s1 { e with finished := true } err

/-- The method `Wait`. -/
def Wait {σ : Type} (W : OS σ) (s : σ) (e : UniversalExecutor) : Outcome σ :=
  cmdWait W s e

/-- The method `ID`. -/
def ID (e : UniversalExecutor) : String × Option Error :=
  match e.Process with
  | some p => (Itoa p.Pid, none)
  | none => ("", some .noProcess)

/-- The method `ForceStop`: `e.Process.Kill()`, which dereferences the handle
and so panics on a nil one. -/
def ForceStop {σ : Type} (W : OS σ) (s : σ) (e : UniversalExecutor) : Outcome σ :=
  match e.Process with
  | none => .panicked
  | some p =>
    match W.Kill s p with
    | (s1, err) => .returned s1 e err

/-- The method `Shutdown`. -/
def Shutdown {σ : Type} (W : OS σ) (s : σ) (e : UniversalExecutor) : Outcome σ :=
  ForceStop W s e

/-- The method `Command`: the embedded command, here the executor itself. -/
def Command (e : UniversalExecutor) : UniversalExecutor :=
  e

/-! ## Sequences of calls -/

/-- A call of one of the methods `Limit`, `ConfigureTaskDir`, `Open` and
`Start`, with its arguments; `R` is the type of resource specifications. -/
inductive Call (R : Type) where
  | Limit (resources : Option R) : Call R
  | ConfigureTaskDir (taskName : String) (alloc : AllocDir) : Call R
  | Open (pid : String) : Call R
  | Start : Call R

/-- The kernel state, the executor and the error after a call. -/
def makeCall {R σ : Type} (C : Collaborators) (W : OS σ) (s : σ) (e : UniversalExecutor) :
    Call R → σ × UniversalExecutor × Option Error
  | .Limit r => (s, Limit e r)
  | .ConfigureTaskDir t a => (s, ConfigureTaskDir e t a)
  | .Open pid => Open W s e pid
  | .Start => Start C W s e

/-- The calls that install a handle when they succeed: `Open` and `Start`. -/
def Call.attaches {R : Type} : Call R → Bool
  | .Open _ => true
  | .Start => true
  | _ => false

/-- The kernel state and the executor after the calls of a list, made in
order. -/
def makeCalls {R σ : Type} (C : Collaborators) (W : OS σ) :
    σ → UniversalExecutor → List (Call R) → σ × UniversalExecutor
  | s, e, [] => (s, e)
  | s, e, c :: cs => makeCalls C W (makeCall C W s e c).1 (makeCall C W s e c).2.1 cs

/-- Every `Open` and every `Start` of the list returned an error when it was
made. -/
def attachesFailed {R σ : Type} (C : Collaborators) (W : OS σ) :
    σ → UniversalExecutor → List (Call R) → Bool
  | _, _, [] => true
  | s, e, c :: cs =>
    (!c.attaches || (makeCall C W s e c).2.2.isSome) &&
      attachesFailed C W (makeCall C W s e c).1 (makeCall C W s e c).2.1 cs

/-! ## A kernel and collaborators for the examples -/

/-- A kernel that records its calls, the state being the list of calls made so
far, latest first.  With `up = true` every launch gives process 4711 and every
lookup finds the process; with `up = false` launches and lookups fail.  Kill
and the wait for the exit succeed. -/
def recordingOS (up : Bool) : OS (List String) where
  intSize := 64
  StartProcess := fun s path _ _ dir =>
    (("start " ++ path ++ " in " ++ dir) :: s,
      if up then .ok { Pid := 4711 } else .error (.external "no such file or directory"))
  Lookup := fun s pid =>
    (("lookup " ++ Itoa pid) :: s, if up then none else some (.external "no such process"))
  Kill := fun s p => (("kill " ++ Itoa p.Pid) :: s, none)
  WaitExit := fun s p => some (("wait " ++ Itoa p.Pid) :: s, none)

/-- An interpolator for the examples: a string that starts with `$` and a key
of the map gets the value of the key in place of the token, and the result is
one field; a string that ends in `$` is refused. -/
def expandLeadingToken (s : String) (m : List (String × String)) : Except Error (List String) :=
  if s.data.getLast? = some '$' then .error (.external "token without a name") else
  match m.find? (fun kv => ('$' :: kv.1.data).isPrefixOf s.data) with
  | some kv => .ok [String.mk (kv.2.data ++ s.data.drop (kv.1.data.length + 1))]
  | none => .ok [s]

/-- Collaborators for the examples: `TaskLocal` is `local`, the interpolator is
`expandLeadingToken`, and an environment list with an empty entry is refused. -/
def exampleCollaborators : Collaborators where
  TaskLocal := "local"
  ParseAndReplace := expandLeadingToken
  TaskEnvironment := List String
  ParseFromList := fun env =>
    if "" ∈ env then .error (.external "empty environment entry") else .ok env
  Map := fun _ => []

/-- The calls of the example for C5: both kinds of `Limit`, a
`ConfigureTaskDir`, an `Open` of a string that is no number, an `Open` whose
lookup fails, and a `Start` whose launch fails. -/
def failingCalls : List (Call Unit) :=
  [.Limit none, .Limit (some ()), .ConfigureTaskDir "web" ⟨[("web", "/var/alloc/abc/web")]⟩,
   .Open "abc", .Open "815", .Start]

/-- An executor for the examples: a fresh one with the path
`$NOMAD_TASK_DIR/run.sh`. -/
def runScript : UniversalExecutor :=
  { NewExecutor with Path := "$NOMAD_TASK_DIR/run.sh" }

/-- A binding for the examples: the task `web` in `/var/alloc/abc/local`. -/
def webAlloc : AllocDir :=
  { TaskDirs := [("web", "/var/alloc/abc/local")] }

/-- A second binding: the task `web` in `/var/alloc/xyz/local`. -/
def webAllocOther : AllocDir :=
  { TaskDirs := [("web", "/var/alloc/xyz/local")] }

/-! ## Decimal strings: `Atoi` reads what `Itoa` writes -/

theorem isDigit_digitChar (d : Nat) (h : d < 10) : isDigit (digitChar d) = true := by
  interval_cases d <;> decide

theorem digitVal_digitChar (d : Nat) (h : d < 10) : digitVal (digitChar d) = d := by
  interval_cases d <;> decide

/-- The digit loop on a concatenation runs on the first part, then on the
second from the value the first part left. -/
theorem parseUintLoop_append (maxVal : Nat) (xs ys : List Char) (n : Nat) :
    parseUintLoop maxVal (xs ++ ys) n =
      match parseUintLoop maxVal xs n with
      | .ok m => parseUintLoop maxVal ys m
      | .error err => .error err := by
  induction xs generalizing n with
  | nil => simp [parseUintLoop]
  | cons c cs ih =>
    simp only [List.cons_append, parseUintLoop]
    split_ifs <;> simp [ih]

/-- One more digit `d` after the value `n`, when `n * 10 + d` fits. -/
theorem parseUintLoop_digit (maxVal n d : Nat) (hd : d < 10)
    (hfit : n * 10 + d ≤ maxVal) (hmax : maxVal ≤ maxUint64) :
    parseUintLoop maxVal [digitChar d] n = .ok (n * 10 + d) := by
  have h64 : maxUint64 = 18446744073709551615 := rfl
  simp only [parseUintLoop, isDigit_digitChar d hd, digitVal_digitChar d hd]
  rw [if_neg (by simp), if_neg (by omega), if_neg (by omega)]

/-- The digit loop reads the digits of `n` back as `n`. -/
theorem parseUintLoop_formatDecimal (maxVal : Nat) (hmax : maxVal ≤ maxUint64) :
    ∀ (fuel n : Nat), n < fuel → n ≤ maxVal →
      parseUintLoop maxVal (formatDecimal fuel n) 0 = .ok n := by
  intro fuel
  induction fuel with
  | zero => intro n h; omega
  | succ fuel ih =>
    intro n hfuel hn
    unfold formatDecimal
    split_ifs with h10
    · have := parseUintLoop_digit maxVal 0 n h10 (by omega) hmax
      simpa using this
    · rw [parseUintLoop_append, ih (n / 10) (by omega) (by omega)]
      have := parseUintLoop_digit maxVal (n / 10) (n % 10) (by omega) (by omega) hmax
      simp only [this]
      congr 1
      omega

/-- The digits of a number start with a digit: the list is not empty and its
head is neither sign. -/
theorem formatDecimal_head (fuel n : Nat) (h : n < fuel) :
    ∃ c cs, formatDecimal fuel n = c :: cs ∧ isDigit c = true := by
  induction fuel generalizing n with
  | zero => omega
  | succ fuel ih =>
    unfold formatDecimal
    split_ifs with h10
    · exact ⟨_, [], rfl, isDigit_digitChar n h10⟩
    · obtain ⟨c, cs, hc, hd⟩ := ih (n / 10) (by omega)
      exact ⟨c, cs ++ [digitChar (n % 10)], by simp [hc], hd⟩

/-- The digit loop accepts digits only. -/
theorem parseUintLoop_ok_digits (maxVal : Nat) (cs : List Char) (n m : Nat)
    (h : parseUintLoop maxVal cs n = .ok m) : ∀ c ∈ cs, isDigit c = true := by
  induction cs generalizing n with
  | nil => simp
  | cons c cs ih =>
    simp only [parseUintLoop] at h
    split_ifs at h with h1 h2 h3
    intro x hx
    rcases List.mem_cons.mp hx with rfl | hx
    · simpa using h1
    · exact ih _ h x hx

/-- A string with a character that is no digit after its first character is
refused by `Atoi`. -/
theorem Atoi_error_of_not_digit (intSize : Nat) (s : String) (c : Char) (cs : List Char)
    (hs : s.data = c :: cs) (x : Char) (hx : x ∈ cs) (hd : isDigit x = false) :
    ∃ err, Atoi intSize s = .error err := by
  have hrest : x ∈ (if c = '+' ∨ c = '-' then cs else c :: cs) := by
    split_ifs
    · exact hx
    · exact List.mem_cons_of_mem _ hx
  simp only [Atoi, hs]
  generalize (if c = '+' ∨ c = '-' then cs else c :: cs) = rest at hrest ⊢
  have hfail : ∃ k, ParseUint intSize rest = .error k := by
    unfold ParseUint
    split_ifs
    · exact ⟨_, rfl⟩
    · cases hl : parseUintLoop (2 ^ intSize - 1) rest 0 with
      | error k => exact ⟨k, rfl⟩
      | ok m =>
        have := parseUintLoop_ok_digits _ _ _ _ hl x hrest
        rw [hd] at this
        exact absurd this (by decide)
  obtain ⟨k, hk⟩ := hfail
  rw [hk]
  cases k <;> exact ⟨_, rfl⟩

/-- The round trip of `strconv`: for an `int` of 32 or 64 bits and a value `p`
of that type, `Atoi` reads `Itoa p` as `p`. -/
theorem Atoi_Itoa (intSize : Nat) (hsize : intSize = 32 ∨ intSize = 64) (p : Int)
    (hlo : -((2 ^ (intSize - 1) : Nat) : Int) ≤ p) (hhi : p < ((2 ^ (intSize - 1) : Nat) : Int)) :
    Atoi intSize (Itoa p) = .ok p := by
  have h64 : maxUint64 = 18446744073709551615 := rfl
  have hmax : 2 ^ intSize - 1 ≤ maxUint64 := by
    rcases hsize with h | h <;> subst h <;> simp [h64]
  have hcut : (2 : Nat) ^ (intSize - 1) ≤ 2 ^ intSize - 1 := by
    rcases hsize with h | h <;> subst h <;> norm_num
  by_cases hneg : p < 0
  · obtain ⟨c, cs, hc, hd⟩ := formatDecimal_head (p.natAbs + 1) p.natAbs (by omega)
    have hloop := parseUintLoop_formatDecimal (2 ^ intSize - 1) hmax (p.natAbs + 1) p.natAbs
      (by omega) (by omega)
    simp only [Itoa, if_pos hneg, Atoi, ParseUint]
    generalize 2 ^ (intSize - 1) = cutoff at *
    simp only [hc] at hloop ⊢
    simp only [decide_True, true_or, or_true, if_true, hloop, if_neg (List.cons_ne_nil c cs)]
    rw [if_neg (by simp), if_neg (by simp; omega)]
    congr 1
    omega
  · obtain ⟨c, cs, hc, hd⟩ := formatDecimal_head (p.toNat + 1) p.toNat (by omega)
    have hloop := parseUintLoop_formatDecimal (2 ^ intSize - 1) hmax (p.toNat + 1) p.toNat
      (by omega) (by omega)
    have hplus : c ≠ '+' := by rintro rfl; revert hd; decide
    have hminus : c ≠ '-' := by rintro rfl; revert hd; decide
    simp only [Itoa, if_neg hneg, Atoi, ParseUint]
    generalize 2 ^ (intSize - 1) = cutoff at *
    simp only [hc] at hloop ⊢
    simp only [hplus, hminus, decide_False, or_self, if_false, hloop,
      if_neg (List.cons_ne_nil c cs)]
    rw [if_neg (by simp; omega), if_neg (by simp)]
    simp only [Bool.false_eq_true, if_false]
    congr 1
    omega

/-! ## `Limit` and `ConfigureTaskDir` -/

/-- C1: `Limit` returns the no-resources error exactly when the resource
specification is nil, returns no error for every specification that is not nil
whatever it holds, and in both cases leaves the executor as it was. -/
theorem C1_Limit_nil_iff_error {R : Type} (e : UniversalExecutor) (r : Option R) :
    ((Limit e r).2 = some Error.errNoResources ↔ r = none) ∧
    (∀ x : R, (Limit e (some x)).2 = none) ∧
    (Limit e r).1 = e := by
  cases r <;> simp [Limit]

/-- C2: `ConfigureTaskDir t B` returns no error if and only if `t` is a key of
`B`; on success the executor is the one before the call with `Dir` set to
`B[t]` and nothing else changed; when `t` is no key the error is the
task-dir-not-found error for `t` and the executor, `Dir` included, is the one
before the call. -/
theorem C2_ConfigureTaskDir (e : UniversalExecutor) (t : String) (B : AllocDir) :
    ((ConfigureTaskDir e t B).2 = none ↔ t ∈ B.TaskDirs.map Prod.fst) ∧
    (∀ dir, B.TaskDirs.lookup t = some dir →
      ConfigureTaskDir e t B = ({ e with Dir := dir }, none)) ∧
    (t ∉ B.TaskDirs.map Prod.fst →
      ConfigureTaskDir e t B = (e, some (Error.taskDirNotFound t)) ∧
      (ConfigureTaskDir e t B).1.Dir = e.Dir) := by
  have key : B.TaskDirs.lookup t = none ↔ t ∉ B.TaskDirs.map Prod.fst := by
    rw [List.lookup_eq_none_iff]
    simp only [List.mem_map, bne_iff_ne, ne_eq, not_exists, not_and]
    constructor
    · intro h p hp heq
      exact h p hp heq.symm
    · intro h p hp heq
      exact h p hp heq.symm
  refine ⟨?_, ?_, ?_⟩
  · cases hl : B.TaskDirs.lookup t with
    | none => simp [ConfigureTaskDir, hl, key.mp hl]
    | some dir =>
      have : ¬ t ∉ B.TaskDirs.map Prod.fst := fun h => by simp [key.mpr h] at hl
      simp only [ConfigureTaskDir, hl, true_iff]
      exact not_not.mp this
  · intro dir hl
    simp [ConfigureTaskDir, hl]
  · intro h
    simp [ConfigureTaskDir, key.mpr h]

/-- C2 at the binding `web ↦ /var/alloc/abc/web`: the task `web` is configured,
the task `db` is refused. -/
theorem C2_ConfigureTaskDir_witness :
    ConfigureTaskDir NewExecutor "web" { TaskDirs := [("web", "/var/alloc/abc/web")] } =
      ({ NewExecutor with Dir := "/var/alloc/abc/web" }, none) ∧
    ConfigureTaskDir NewExecutor "db" { TaskDirs := [("web", "/var/alloc/abc/web")] } =
      (NewExecutor, some (Error.taskDirNotFound "db")) :=
  ⟨(C2_ConfigureTaskDir NewExecutor "web" ⟨[("web", "/var/alloc/abc/web")]⟩).2.1 _ (by decide),
   ((C2_ConfigureTaskDir NewExecutor "db" ⟨[("web", "/var/alloc/abc/web")]⟩).2.2 (by decide)).1⟩

/-! ## `Open` and `ID` -/

/-- C7: when `Atoi` refuses the string, `Open` returns the invalid-pid error
built from it, the kernel is not called (its state is the one before the call
and the result is the same under every other kernel with that `int`), and the
executor is the one before the call; when `Atoi` reads `n` and the lookup of
`n` succeeds, `Open` returns no error and the handle is the process with pid
`n`.  The strings `""`, `abc` and `12x` are refused. -/
theorem C7_Open_parse (σ : Type) (W : OS σ) (s : σ) (e : UniversalExecutor) (pid : String) :
    (∀ err, Atoi W.intSize pid = .error err →
      Open W s e pid = (s, e, some (Error.parsePid pid err)) ∧
      ∀ W2 : OS σ, W2.intSize = W.intSize → Open W2 s e pid = Open W s e pid) ∧
    (∀ n s1, Atoi W.intSize pid = .ok n → W.Lookup s n = (s1, none) →
      Open W s e pid = (s1, { e with Process := some { Pid := n } }, none)) ∧
    (∀ bad ∈ ["", "abc", "12x"], ∃ err, Atoi W.intSize bad = .error err ∧
      Open W s e bad = (s, e, some (Error.parsePid bad err))) := by
  refine ⟨?_, ?_, ?_⟩
  · intro err h
    refine ⟨by simp [Open, h], ?_⟩
    intro W2 h2
    simp [Open, h, h2]
  · intro n s1 h hl
    simp [Open, h, FindProcess, hl]
  · intro bad hbad
    have hex : ∃ err, Atoi W.intSize bad = .error err := by
      simp only [List.mem_cons, List.mem_singleton, List.not_mem_nil, or_false] at hbad
      rcases hbad with rfl | rfl | rfl
      · exact ⟨_, rfl⟩
      · exact ⟨_, rfl⟩
      · exact Atoi_error_of_not_digit W.intSize "12x" '1' ['2', 'x'] rfl 'x' (by decide) (by decide)
    obtain ⟨err, h⟩ := hex
    exact ⟨err, h, by simp [Open, h]⟩

/-- C7 on the recording kernel: `12x` is refused with no kernel call recorded,
and `815` installs the process 815 after one lookup. -/
theorem C7_Open_parse_witness :
    Open (recordingOS true) [] NewExecutor "12x" =
      ([], NewExecutor, some (Error.parsePid "12x" (Error.numSyntax "Atoi" "12x"))) ∧
    Open (recordingOS true) [] NewExecutor "815" =
      (["lookup 815"], { NewExecutor with Process := some { Pid := 815 } }, none) :=
  ⟨((C7_Open_parse _ (recordingOS true) [] NewExecutor "12x").1 _ (by decide)).1,
   (C7_Open_parse _ (recordingOS true) [] NewExecutor "815").2.1 815 ["lookup 815"]
     (by decide) (by decide)⟩

/-- C4: for an executor whose handle has pid `p` (a Go `int` of 32 or 64 bits),
`ID` returns the decimal string of `p` with no error; and when the lookup of
`p` succeeds, `Open` of that string on a fresh executor returns no error and
installs a handle with pid `p`, so that `ID` of the new executor returns the
same string. -/
theorem C4_ID_Open_round_trip (σ : Type) (W : OS σ) (s s1 : σ) (e : UniversalExecutor)
    (p : Process) (hsize : W.intSize = 32 ∨ W.intSize = 64)
    (hlo : -((2 ^ (W.intSize - 1) : Nat) : Int) ≤ p.Pid)
    (hhi : p.Pid < ((2 ^ (W.intSize - 1) : Nat) : Int))
    (hproc : e.Process = some p) (hlookup : W.Lookup s p.Pid = (s1, none)) :
    ID e = (Itoa p.Pid, none) ∧
    Open W s NewExecutor (ID e).1 = (s1, { NewExecutor with Process := some p }, none) ∧
    ID (Open W s NewExecutor (ID e).1).2.1 = (Itoa p.Pid, none) := by
  have hid : ID e = (Itoa p.Pid, none) := by simp [ID, hproc]
  have hopen : Open W s NewExecutor (Itoa p.Pid) =
      (s1, { NewExecutor with Process := some p }, none) := by
    simp [Open, Atoi_Itoa W.intSize hsize p.Pid hlo hhi, FindProcess, hlookup]
  refine ⟨hid, ?_, ?_⟩
  · rw [hid]; exact hopen
  · rw [hid]; simp only [hopen]; simp [ID]

/-- C4 at pid 4711 on the recording kernel. -/
theorem C4_ID_Open_round_trip_witness :
    ID { NewExecutor with Process := some { Pid := 4711 } } = ("4711", none) ∧
    Open (recordingOS true) [] NewExecutor "4711" =
      (["lookup 4711"], { NewExecutor with Process := some { Pid := 4711 } }, none) ∧
    ID (Open (recordingOS true) [] NewExecutor "4711").2.1 = ("4711", none) :=
  C4_ID_Open_round_trip _ (recordingOS true) [] ["lookup 4711"]
    { NewExecutor with Process := some { Pid := 4711 } } { Pid := 4711 }
    (Or.inr rfl) (by decide) (by decide) rfl (by decide)

/-! ## `Shutdown` and `ForceStop` -/

/-- C9: in every kernel state and for every executor, with or without a handle,
`Shutdown` ends exactly as `ForceStop` does: the same panic, or the same
kernel state, executor and error. -/
theorem C9_Shutdown_is_ForceStop (σ : Type) (W : OS σ) (s : σ) (e : UniversalExecutor) :
    Shutdown W s e = ForceStop W s e ∧
    (e.Process = none → Shutdown W s e = Outcome.panicked) ∧
    (∀ p, e.Process = some p →
      Shutdown W s e = Outcome.returned (W.Kill s p).1 e (W.Kill s p).2) := by
  refine ⟨rfl, ?_, ?_⟩
  · intro h; simp [Shutdown, ForceStop, h]
  · intro p h; simp [Shutdown, ForceStop, h]

/-- C9 on the recording kernel, for an executor with the handle 4711 and for a
fresh one. -/
theorem C9_Shutdown_is_ForceStop_witness :
    Shutdown (recordingOS true) [] { NewExecutor with Process := some { Pid := 4711 } } =
      Outcome.returned ["kill 4711"] { NewExecutor with Process := some { Pid := 4711 } } none ∧
    Shutdown (recordingOS true) [] NewExecutor = Outcome.panicked :=
  ⟨(C9_Shutdown_is_ForceStop _ (recordingOS true) []
      { NewExecutor with Process := some { Pid := 4711 } }).2.2 { Pid := 4711 } rfl,
   (C9_Shutdown_is_ForceStop _ (recordingOS true) [] NewExecutor).2.1 rfl⟩

/-- C10: `ForceStop` has no check for a nil handle.  With a handle present it
does not panic and returns what the kill of that handle returns, unmodified,
with the executor unchanged; it panics exactly when the handle is absent, and
so does `Shutdown`; on a fresh executor both panic, and in no state does
`ForceStop` make a no-process error of an absent handle. -/
theorem C10_ForceStop_nil_handle (σ : Type) (W : OS σ) (s : σ) (e : UniversalExecutor) :
    (∀ p, e.Process = some p →
      ForceStop W s e = Outcome.returned (W.Kill s p).1 e (W.Kill s p).2) ∧
    (ForceStop W s e = Outcome.panicked ↔ e.Process = none) ∧
    (Shutdown W s e = Outcome.panicked ↔ e.Process = none) ∧
    ForceStop W s NewExecutor = Outcome.panicked ∧
    Shutdown W s NewExecutor = Outcome.panicked ∧
    (e.Process = none → ∀ s1 e1 err, ForceStop W s e ≠ Outcome.returned s1 e1 err) := by
  have hp : ∀ p, e.Process = some p →
      ForceStop W s e = Outcome.returned (W.Kill s p).1 e (W.Kill s p).2 := by
    intro p h; simp [ForceStop, h]
  have hn : ForceStop W s e = Outcome.panicked ↔ e.Process = none := by
    cases h : e.Process with
    | none => simp [ForceStop, h]
    | some p => simp [ForceStop, h]
  refine ⟨hp, hn, hn, rfl, rfl, ?_⟩
  intro h s1 e1 err
  rw [hn.mpr h]
  simp

/-- C10 on the recording kernel: the kill of the handle 4711 is what
`ForceStop` returns, and a fresh executor panics. -/
theorem C10_ForceStop_nil_handle_witness :
    ForceStop (recordingOS true) [] { NewExecutor with Process := some { Pid := 4711 } } =
      Outcome.returned ["kill 4711"] { NewExecutor with Process := some { Pid := 4711 } } none ∧
    ForceStop (recordingOS true) [] NewExecutor = Outcome.panicked :=
  ⟨(C10_ForceStop_nil_handle _ (recordingOS true) []
      { NewExecutor with Process := some { Pid := 4711 } }).1 { Pid := 4711 } rfl,
   (C10_ForceStop_nil_handle _ (recordingOS true) [] NewExecutor).2.1.mpr rfl⟩

/-! ## An executor without a successful `Start` or `Open` has no process -/

/-- A launch that fails on a command without a process leaves it without one. -/
theorem cmdStart_Process_none {σ : Type} (W : OS σ) (s : σ) (e : UniversalExecutor)
    (he : e.Process = none) (herr : (cmdStart W s e).2.2.isSome = true) :
    (cmdStart W s e).2.1.Process = none := by
  simp only [cmdStart, he] at herr ⊢
  rcases h : W.StartProcess s e.Path (argv e) e.Env e.Dir with ⟨s1, err | p⟩
  · simp [he]
  · simp [h] at herr

/-- A `Start` that fails on an executor without a handle leaves it without
one. -/
theorem Start_Process_none {σ : Type} (C : Collaborators) (W : OS σ) (s : σ)
    (e : UniversalExecutor) (he : e.Process = none)
    (herr : (Start C W s e).2.2.isSome = true) : (Start C W s e).2.1.Process = none := by
  unfold Start at herr ⊢
  cases h1 : C.ParseAndReplace e.Path (ntdMap C) with
  | error err => simpa [h1] using he
  | ok cmPath =>
    simp only [h1] at herr ⊢
    cases h2 : C.ParseFromList e.Env with
    | error err => simpa [h2] using he
    | ok envVars =>
      simp only [h2] at herr ⊢
      cases h3 : C.ParseAndReplace (joinSpace e.Args) (C.Map envVars) with
      | error err => simpa [h3] using he
      | ok parsed =>
        simp only [h3] at herr ⊢
        exact cmdStart_Process_none W s _ he herr

/-- An `Open` that fails leaves the executor as it was. -/
theorem Open_error_unchanged {σ : Type} (W : OS σ) (s : σ) (e : UniversalExecutor)
    (pid : String) (herr : (Open W s e pid).2.2.isSome = true) : (Open W s e pid).2.1 = e := by
  unfold Open FindProcess at herr ⊢
  cases h1 : Atoi W.intSize pid with
  | error err => simp
  | ok n =>
    simp only [h1] at herr ⊢
    rcases h2 : W.Lookup s n with ⟨s1, _ | err⟩
    · simp [h2] at herr
    · simp

/-- A call on an executor without a handle leaves it without one, unless it is
an `Open` or a `Start` that returns no error. -/
theorem makeCall_Process_none {R σ : Type} (C : Collaborators) (W : OS σ) (s : σ)
    (e : UniversalExecutor) (c : Call R) (he : e.Process = none)
    (hc : (!c.attaches || (makeCall C W s e c).2.2.isSome) = true) :
    (makeCall C W s e c).2.1.Process = none := by
  cases c with
  | Limit r => cases r <;> simpa [makeCall, Limit] using he
  | ConfigureTaskDir t a =>
    simp only [makeCall, ConfigureTaskDir]
    split <;> simpa using he
  | Open pid =>
    simp only [makeCall, Call.attaches, Bool.not_true, Bool.false_or] at hc ⊢
    rw [Open_error_unchanged W s e pid hc]
    exact he
  | Start =>
    simp only [makeCall, Call.attaches, Bool.not_true, Bool.false_or] at hc ⊢
    exact Start_Process_none C W s e he hc

/-- The invariant along a list of calls. -/
theorem makeCalls_Process_none {R σ : Type} (C : Collaborators) (W : OS σ)
    (calls : List (Call R)) : ∀ (s : σ) (e : UniversalExecutor), e.Process = none →
      attachesFailed C W s e calls = true → (makeCalls C W s e calls).2.Process = none := by
  induction calls with
  | nil => intro s e he _; exact he
  | cons c cs ih =>
    intro s e he h
    simp only [attachesFailed, Bool.and_eq_true] at h
    exact ih _ _ (makeCall_Process_none C W s e c he h.1) h.2

/-- C5: starting from `NewExecutor()`, after any finite list of `Limit`,
`ConfigureTaskDir`, `Open` and `Start` calls in which every `Open` and every
`Start` returned an error (interpolation, environment parsing or launch), the
handle is still absent and `ID` returns the empty string with the no-process
error. -/
theorem C5_no_process_before_Start_or_Open {R σ : Type} (C : Collaborators) (W : OS σ)
    (s : σ) (calls : List (Call R))
    (h : attachesFailed C W s NewExecutor calls = true) :
    (makeCalls C W s NewExecutor calls).2.Process = none ∧
    ID (makeCalls C W s NewExecutor calls).2 = ("", some Error.noProcess) := by
  have hp := makeCalls_Process_none C W calls s NewExecutor rfl h
  exact ⟨hp, by simp [ID, hp]⟩

/-- C5 on the recording kernel in which launches and lookups fail. -/
theorem C5_no_process_before_Start_or_Open_witness :
    attachesFailed exampleCollaborators (recordingOS false) [] NewExecutor failingCalls = true ∧
    (makeCalls exampleCollaborators (recordingOS false) [] NewExecutor failingCalls).2.Process
      = none ∧
    ID (makeCalls exampleCollaborators (recordingOS false) [] NewExecutor failingCalls).2
      = ("", some Error.noProcess) :=
  ⟨by decide,
   C5_no_process_before_Start_or_Open exampleCollaborators (recordingOS false) [] failingCalls
     (by decide)⟩

/-! ## What `Start` does with the task directory -/

/-- The path that `Start` leaves in the command does not depend on the working
directory of the command. -/
theorem Start_Path_of_Dir {σ : Type} (C : Collaborators) (W : OS σ) (s : σ)
    (e : UniversalExecutor) (d1 d2 : String) :
    (Start C W s { e with Dir := d1 }).2.1.Path = (Start C W s { e with Dir := d2 }).2.1.Path := by
  unfold Start cmdStart
  cases h1 : C.ParseAndReplace e.Path (ntdMap C) with
  | error err => simp [h1]
  | ok cmPath =>
    simp only [h1]
    cases h2 : C.ParseFromList e.Env with
    | error err => simp [h2]
    | ok envVars =>
      simp only [h2]
      cases h3 : C.ParseAndReplace (joinSpace e.Args) (C.Map envVars) with
      | error err => simp [h3]
      | ok parsed =>
        simp only [h3]
        cases e.Process with
        | some p => simp
        | none =>
          simp only
          split <;> split <;> simp

/-- C3, as stated, fails: whatever the constant `allocdir.TaskLocal` and the
interpolator are, the map that `Start` hands to the path interpolator does not
bind `NOMAD_TASK_DIR` to the directory that `ConfigureTaskDir` resolved for
every binding, and `Start` does not leave the path `B[t]/run.sh` for every
binding: the bindings `web ↦ /var/alloc/abc/local` and
`web ↦ /var/alloc/xyz/local` get the same map and the same path. -/
theorem C3_token_not_bound_to_task_dir :
    (¬ ∃ C : Collaborators, ∀ B ∈ [webAlloc, webAllocOther], ∀ dir,
        B.TaskDirs.lookup "web" = some dir →
        (ConfigureTaskDir runScript "web" B).2 = none ∧
        (ntdMap C).lookup "NOMAD_TASK_DIR" = some dir) ∧
    (¬ ∃ C : Collaborators, ∀ B ∈ [webAlloc, webAllocOther], ∀ dir,
        B.TaskDirs.lookup "web" = some dir →
        (Start C (recordingOS true) [] (ConfigureTaskDir runScript "web" B).1).2.1.Path
          = dir ++ "/run.sh") := by
  constructor
  · rintro ⟨C, h⟩
    have h1 := (h webAlloc (by simp) "/var/alloc/abc/local" (by decide)).2
    have h2 := (h webAllocOther (by simp) "/var/alloc/xyz/local" (by decide)).2
    rw [h1] at h2
    exact absurd h2 (by decide)
  · rintro ⟨C, h⟩
    have h1 := h webAlloc (by simp) "/var/alloc/abc/local" (by decide)
    have h2 := h webAllocOther (by simp) "/var/alloc/xyz/local" (by decide)
    have e1 : (ConfigureTaskDir runScript "web" webAlloc).1
        = { runScript with Dir := "/var/alloc/abc/local" } := by decide
    have e2 : (ConfigureTaskDir runScript "web" webAllocOther).1
        = { runScript with Dir := "/var/alloc/xyz/local" } := by decide
    rw [e1] at h1
    rw [e2, Start_Path_of_Dir C (recordingOS true) [] runScript _ "/var/alloc/abc/local", h1] at h2
    exact absurd h2 (by decide)

/-- C3, amended: for a task name `t` with `B[t] = dir`, `ConfigureTaskDir`
succeeds and stores `dir` as the working directory; the map that `Start` hands
to the path interpolator has the single entry `NOMAD_TASK_DIR ↦ TaskLocal`, the
constant of `allocdir`, whatever `dir` is; when the interpolator refuses the
path `Start` returns the error-parsing-command-args error and changes nothing;
when it gives the fields `cmPath`, the path of the command becomes their join
with spaces and the working directory stays `dir`; and when the environment
and the arguments are interpolated too and there is no process yet, the kernel
is asked to launch that path in the working directory `dir`. -/
theorem C3_Start_binds_token_to_TaskLocal (σ : Type) (C : Collaborators) (W : OS σ) (s : σ)
    (e : UniversalExecutor) (t : String) (B : AllocDir) (dir : String)
    (h : B.TaskDirs.lookup t = some dir) :
    ConfigureTaskDir e t B = ({ e with Dir := dir }, none) ∧
    ntdMap C = [("NOMAD_TASK_DIR", C.TaskLocal)] ∧
    (∀ err, C.ParseAndReplace e.Path (ntdMap C) = .error err →
      Start C W s (ConfigureTaskDir e t B).1 =
        (s, { e with Dir := dir }, some Error.parsingCommandArgs)) ∧
    (∀ cmPath, C.ParseAndReplace e.Path (ntdMap C) = .ok cmPath →
      (Start C W s (ConfigureTaskDir e t B).1).2.1.Path = joinSpace cmPath ∧
      (Start C W s (ConfigureTaskDir e t B).1).2.1.Dir = dir) ∧
    (∀ cmPath envVars parsed, C.ParseAndReplace e.Path (ntdMap C) = .ok cmPath →
      C.ParseFromList e.Env = .ok envVars →
      C.ParseAndReplace (joinSpace e.Args) (C.Map envVars) = .ok parsed →
      e.Process = none →
      (Start C W s (ConfigureTaskDir e t B).1).1 =
        (W.StartProcess s (joinSpace cmPath)
          (if parsed = [] then [joinSpace cmPath] else parsed) e.Env dir).1) := by
  have hc : ConfigureTaskDir e t B = ({ e with Dir := dir }, none) := by
    simp [ConfigureTaskDir, h]
  refine ⟨hc, rfl, ?_, ?_, ?_⟩
  · intro err h1
    simp [hc, Start, h1]
  · intro cmPath h1
    simp only [hc, Start, h1, cmdStart]
    cases h2 : C.ParseFromList e.Env with
    | error err => simp
    | ok envVars =>
      simp only
      cases h3 : C.ParseAndReplace (joinSpace e.Args) (C.Map envVars) with
      | error err => simp
      | ok parsed =>
        simp only
        cases e.Process with
        | some p => simp
        | none =>
          simp only
          split <;> simp
  · intro cmPath envVars parsed h1 h2 h3 hp
    simp only [hc, Start, h1, h2, h3, cmdStart, hp, argv]
    split <;> simp_all

/-- C3, amended, on the recording kernel with the example collaborators, whose
`TaskLocal` is `local`: the path `$NOMAD_TASK_DIR/run.sh` of a task bound to
`/var/alloc/abc/local` is launched as `local/run.sh` in that directory. -/
theorem C3_Start_binds_token_to_TaskLocal_witness :
    ConfigureTaskDir runScript "web" webAlloc =
      ({ runScript with Dir := "/var/alloc/abc/local" }, none) ∧
    ntdMap exampleCollaborators = [("NOMAD_TASK_DIR", "local")] ∧
    (Start exampleCollaborators (recordingOS true) []
      (ConfigureTaskDir runScript "web" webAlloc).1).2.1.Path = "local/run.sh" ∧
    (Start exampleCollaborators (recordingOS true) []
      (ConfigureTaskDir runScript "web" webAlloc).1).1
      = ["start local/run.sh in /var/alloc/abc/local"] :=
  have h := C3_Start_binds_token_to_TaskLocal _ exampleCollaborators (recordingOS true) []
    runScript "web" webAlloc "/var/alloc/abc/local" (by decide)
  ⟨h.1, h.2.1, (h.2.2.2.1 ["local/run.sh"] (by decide)).1,
   (h.2.2.2.2 ["local/run.sh"] [] [""] (by decide) rfl (by decide) (by decide)).trans
     (by decide)⟩

/-! ## `ID` after `Wait` -/

/-- C6, on the code: a `Wait` that returns leaves the handle as it was, so `ID`
returns after it what it returned before it.  On the recording kernel, a fresh
executor with the path `/bin/true` is started (process 4711), `Wait` returns
with no error, and `ID` then returns `4711` with no error, not the no-process
error. -/
theorem C6_ID_after_completed_Wait :
    (∀ (σ : Type) (W : OS σ) (s s1 : σ) (e e1 : UniversalExecutor) (err : Option Error),
      Wait W s e = Outcome.returned s1 e1 err → e1.Process = e.Process ∧ ID e1 = ID e) ∧
    Start exampleCollaborators (recordingOS true) [] { NewExecutor with Path := "/bin/true" } =
      (["start /bin/true in "],
        { NewExecutor with Path := "/bin/true", Args := [""], Process := some { Pid := 4711 } },
        none) ∧
    Wait (recordingOS true) ["start /bin/true in "]
        { NewExecutor with Path := "/bin/true", Args := [""], Process := some { Pid := 4711 } } =
      Outcome.returned ["wait 4711", "start /bin/true in "]
        { NewExecutor with
          Path := "/bin/true", Args := [""], Process := some { Pid := 4711 }, finished := true }
        none ∧
    ID { NewExecutor with
          Path := "/bin/true", Args := [""], Process := some { Pid := 4711 }, finished := true }
      = ("4711", none) := by
  refine ⟨?_, by decide, by decide, by decide⟩
  intro σ W s s1 e e1 err h
  have hp : e1.Process = e.Process := by
    simp only [Wait, cmdWait] at h
    split at h
    · simp only [Outcome.returned.injEq] at h
      rw [← h.2.1]
    · split at h
      · simp only [Outcome.returned.injEq] at h
        rw [← h.2.1]
      · split at h
        · simp at h
        · simp only [Outcome.returned.injEq] at h
          rw [← h.2.1]
  exact ⟨hp, by simp [ID, hp]⟩

end Executor
